import Mathlib

/- Verification of the python-geometry core module: the 3D vector/point
value types (`Vector3d`, `Point3d`) and the `PointSet` container.

Layer 1 models the numeric behaviour of `Vector3d`/`Point3d` over the real
numbers: Python floats are modelled as exact reals, `math.sqrt` as
`Real.sqrt`, and `round(x, n)` as exact decimal rounding half-to-even
(CPython's rounding mode).  Fallible operations return `Except PyErr` so
that every `raise` statement is visible in the result type.

Layer 2 models the parts of the runtime semantics that the container
behaviour depends on: object identity, the `==` protocol with its
`NotImplemented` fallback, hashing, and dict insertion/lookup.  Coordinates
in this layer are rationals (every Python float value is a rational), which
keeps every definition computable. -/

namespace PyGeom

/-! ## Layer 1: `Vector3d` arithmetic over the reals -/

/-- The two exception kinds the module raises: `ZeroDivisionError` (from
`normalized`) and `NotImplementedError` (from `__add__` on an operand that
is neither a number nor a `Vector3d`). -/
inductive PyErr where
  | zeroDivisionError
  | notImplementedError
deriving DecidableEq

/-- The constructor `Vector3d.__init__` stores the triple `(x, y, z)` in `self.coords` and
mirrors it in `self.x`, `self.y`, `self.z`; the triple is the single source
of truth, so the model is the triple with named fields. -/
@[ext]
structure Vector3d where
  x : ℝ
  y : ℝ
  z : ℝ

/-- Source `self.coords`: the stored coordinate tuple. -/
def Vector3d.coords (v : Vector3d) : ℝ × ℝ × ℝ := (v.x, v.y, v.z)

/-- Source `asList`: `[c for c in self]`, the components in x, y, z order
(iteration over a `Vector3d` iterates its `coords` tuple). -/
def Vector3d.asList (v : Vector3d) : List ℝ := [v.x, v.y, v.z]

/-- Source expression `sum(n**2 for n in self)`: the squared-magnitude expression that both
`length` and `normalized` compute. -/
def sumSquares (v : Vector3d) : ℝ := v.x ^ 2 + v.y ^ 2 + v.z ^ 2

open Classical in
/-- CPython's `round` rounds half to even.  `roundHalfEven x` is the
integer nearest to the real `x`, with ties going to the even integer. -/
noncomputable def roundHalfEven (x : ℝ) : ℤ :=
  if x - ⌊x⌋ < 1 / 2 then ⌊x⌋
  else if 1 / 2 < x - ⌊x⌋ then ⌊x⌋ + 1
  else if Even ⌊x⌋ then ⌊x⌋ else ⌊x⌋ + 1

/-- Python `round(number, ndigits)` as exact decimal rounding (no binary-float
representation error is modelled). -/
noncomputable def pyRound (number : ℝ) (ndigits : ℕ) : ℝ :=
  (roundHalfEven (number * 10 ^ ndigits) : ℝ) / 10 ^ ndigits

/-- Source `isRoughlyZero(number)`: `round(number, 7) == 0`. -/
def isRoughlyZero (number : ℝ) : Prop := pyRound number 7 = 0

/-- Source `Vector3d.length`: `math.sqrt(sum(n**2 for n in self))`. -/
noncomputable def Vector3d.length (v : Vector3d) : ℝ :=
  Real.sqrt (sumSquares v)

/-- The number branch of `Vector3d.__mul__`:
`Vector3d(*((n * other) for n in self))`, elementwise scaling. -/
def Vector3d.mulNum (v : Vector3d) (other : ℝ) : Vector3d :=
  ⟨v.x * other, v.y * other, v.z * other⟩

/-- Source `Vector3d.dot`: `sum((p[0] * p[1]) for p in zip(self, other))`. -/
def Vector3d.dot (v other : Vector3d) : ℝ :=
  v.x * other.x + v.y * other.y + v.z * other.z

/-- Source `Vector3d.cross`, with the three component formulas exactly as in the
source. -/
def Vector3d.cross (v other : Vector3d) : Vector3d :=
  ⟨v.y * other.z - v.z * other.y,
   v.z * other.x - v.x * other.z,
   v.x * other.y - v.y * other.x⟩

/-- The `Vector3d` branch of `__add__`:
`Vector3d(*(sum(p) for p in zip(self, other)))`, elementwise sum. -/
def Vector3d.addVec (v other : Vector3d) : Vector3d :=
  ⟨v.x + other.x, v.y + other.y, v.z + other.z⟩

open Classical in
/-- Source `Vector3d.normalized`: raises `ZeroDivisionError` when
`isRoughlyZero(sum(n**2 for n in self))`, and otherwise returns
`self * (1 / self.length)`. -/
noncomputable def Vector3d.normalized (v : Vector3d) : Except PyErr Vector3d :=
  if isRoughlyZero (sumSquares v) then .error .zeroDivisionError
  else .ok (v.mulNum (1 / v.length))

/-- Source `Vector3d.toLength`: `self.normalized() * number`; the
`ZeroDivisionError` of `normalized` propagates. -/
noncomputable def Vector3d.toLength (v : Vector3d) (number : ℝ) :
    Except PyErr Vector3d :=
  match v.normalized with
  | .error e => .error e
  | .ok u => .ok (u.mulNum number)

/-- The right operand of an arithmetic operator, split exactly the way the
`isinstance` dispatch in `__add__`/`__mul__` splits it: a `numbers.Number`,
a `Vector3d` (or subclass such as `Point3d`), or any other object. -/
inductive Operand where
  | num (n : ℝ)
  | vec (w : Vector3d)
  | foreign

/-- Source `Vector3d.__add__`: for a number, `self.normalized() * other + self`
(raising whatever `normalized` raises); for a `Vector3d`, elementwise sum;
for anything else, `raise NotImplementedError`. -/
noncomputable def Vector3d.add (v : Vector3d) : Operand → Except PyErr Vector3d
  | .num n =>
    match v.normalized with
    | .error e => .error e
    | .ok u => .ok ((u.mulNum n).addVec v)
  | .vec w => .ok (v.addVec w)
  | .foreign => .error .notImplementedError

/-- The possible results of `Vector3d.__mul__`: a scaled vector (number
operand), the dot product (vector operand), or Python `None` — the method
body has no `else` branch, so with a foreign operand control falls off the
end and the call returns `None` without raising. -/
inductive MulVal where
  | vecV (w : Vector3d)
  | numV (r : ℝ)
  | noneV

/-- Source `Vector3d.__mul__`.  It never raises; the `Except` wrapper makes that
fact statable alongside `__add__`. -/
def Vector3d.mul (v : Vector3d) : Operand → Except PyErr MulVal
  | .num n => .ok (.vecV (v.mulNum n))
  | .vec w => .ok (.numV (v.dot w))
  | .foreign => .ok .noneV

/-- The expression `other * -1` as evaluated inside `__sub__`, using the operand's own
multiplication: a number negates, a `Vector3d` scales by `-1`.  A generic
foreign operand stays foreign (no claim exercises that branch). -/
def Operand.mulNegOne : Operand → Operand
  | .num n => .num (n * -1)
  | .vec w => .vec (w.mulNum (-1))
  | .foreign => .foreign

/-- Source `Vector3d.__sub__`: `self.__add__(other * -1)`. -/
noncomputable def Vector3d.sub (v : Vector3d) (other : Operand) :
    Except PyErr Vector3d :=
  v.add other.mulNegOne

/-- The total function `__sub__` computes on a vector operand (see the
lemma `sub_vec_eq_subVec`): elementwise difference. -/
def Vector3d.subVec (v other : Vector3d) : Vector3d :=
  v.addVec (other.mulNum (-1))

/-- Source `Point3d.distanceTo`: `(other - self).length`. -/
noncomputable def Point3d.distanceTo (self other : Vector3d) : ℝ :=
  (other.subVec self).length

/-- Source `Point3d.vectorTo`: `other - self`. -/
def Point3d.vectorTo (self other : Vector3d) : Vector3d :=
  other.subVec self

/-- A key passed to `Vector3d.__getitem__`: an integer, a slice
`start:stop` (the contiguous ranges the spec describes), or a string. -/
inductive VKey where
  | idx (i : ℤ)
  | slice (start stop : Option ℤ)
  | axisName (s : String)

/-- What `Vector3d.__getitem__` returns: a scalar component or a
sub-tuple. -/
inductive GetVal where
  | scalar (r : ℝ)
  | tup (l : List ℝ)

/-- Python sequence indexing with an integer key: a negative key counts
from the end, an out-of-range key raises `IndexError` (modelled as
`none`). -/
def pySeqGet {α : Type} (l : List α) (i : ℤ) : Option α :=
  if 0 ≤ i then l.get? i.toNat
  else if 0 ≤ i + l.length then l.get? (i + l.length).toNat
  else none

/-- One bound of a Python slice, normalized against the sequence length
`n`: a missing bound takes the default, a negative bound counts from the
end, and the result is clamped into `[0, n]`. -/
def pySliceBound (n : ℕ) (dflt : ℤ) : Option ℤ → ℤ
  | none => dflt
  | some i => if i < 0 then max (i + n) 0 else min i n

/-- A Python slice `l[start:stop]` (implicit step 1). -/
def pySlice {α : Type} (l : List α) (start stop : Option ℤ) : List α :=
  (l.drop (pySliceBound l.length 0 start).toNat).take
    ((pySliceBound l.length l.length stop) - (pySliceBound l.length 0 start)).toNat

/-- Source `self.asDict()[key]`: `dict(zip('xyz', self.coords))` looked up at a
string key. -/
def Vector3d.asDict (v : Vector3d) (key : String) : Option ℝ :=
  if key = "x" then some v.x
  else if key = "y" then some v.y
  else if key = "z" then some v.z
  else none

/-- Source `Vector3d.__getitem__`: when `key in ('x','y','z')` the value comes
from `asDict`; every other key goes to `self.coords.__getitem__(key)` —
integer indexing (negative included) or slicing; a non-axis string key
raises a `TypeError` there (modelled as `none`). -/
def Vector3d.getItem (v : Vector3d) : VKey → Option GetVal
  | .idx i => (pySeqGet v.asList i).map .scalar
  | .slice a b => some (.tup (pySlice v.asList a b))
  | .axisName s =>
    if s = "x" ∨ s = "y" ∨ s = "z" then (v.asDict s).map .scalar
    else none

/-! ## Layer 2: runtime object semantics and `PointSet`

Coordinates here are rationals: every Python float value is a rational
number, and none of the container operations involves `sqrt`.  Each
`Vector3d`/`Point3d` instance carries an explicit object id so that
CPython's identity semantics can be expressed. -/

/-- A `Point3d`/`Vector3d` instance at runtime: its identity and its
coordinate triple. -/
structure PyVec where
  objId : ℕ
  coords : ℚ × ℚ × ℚ
deriving DecidableEq

/-- Python `a == b` for two `Vector3d` instances.  `Vector3d.__eq__`
returns `self.coords.__eq__(other)`, and `tuple.__eq__` applied to a
non-tuple argument returns `NotImplemented`; with both sides returning
`NotImplemented`, the `==` operator falls back to the identity test
`a is b`.  So two distinct instances compare unequal even when their
coordinates agree. -/
def vecEqVec (a b : PyVec) : Bool := a.objId == b.objId

/-- Python `a == t` for a `Vector3d` instance `a` and a plain tuple `t`:
`a.__eq__(t)` is `a.coords.__eq__(t)`, an ordinary structural tuple
comparison. -/
def vecEqTup (a : PyVec) (t : ℚ × ℚ × ℚ) : Bool := a.coords == t

/-- The hash of a plain coordinate tuple.  CPython's tuple hash is a
function of the component values; the model uses the tuple itself as the
hash token, which preserves exactly the equal/unequal relations that the
claims and the dict behaviour depend on. -/
def pyHashTup (t : ℚ × ℚ × ℚ) : ℚ × ℚ × ℚ := t

/-- Source `Vector3d.__hash__`: `self.coords.__hash__()`, the hash of the
coordinate tuple. -/
def pyHashVec (a : PyVec) : ℚ × ℚ × ℚ := pyHashTup a.coords

/-- One element of the sequence handed to the `points` setter: a
`Vector3d`/`Point3d` instance, or a plain sequence of coordinates. -/
inductive PtInput where
  | vecIn (v : PyVec)
  | tupIn (t : ℚ × ℚ × ℚ)

/-- The coordinates the setter reads from an input: a `Vector3d` is
unpacked (`Point3d(*val)`), any other input is indexed
(`Point3d(*(val[v] for v in range(3)))`). -/
def PtInput.readCoords : PtInput → ℚ × ℚ × ℚ
  | .vecIn v => v.coords
  | .tupIn t => t

/-- Source `PointSet`: the parallel `pointList` / `pointDict` pair.  The dict is
modelled as an insertion-ordered association list; `dictSet` and the two
lookup functions say why that is faithful. -/
structure PointSet where
  pointList : List PyVec
  pointDict : List (PyVec × ℕ)
deriving DecidableEq

/-- Assignment `d[k] = v` on a dict whose keys are `Point3d` instances: if some stored
key compares equal to `k` (Python `==`, here `vecEqVec`) its value is
replaced (the stored key object is kept), otherwise the pair is appended.
Keys that compare equal always share a hash (both hash their coordinate
tuples), and in a CPython table the keys of one hash are probed in
insertion order, so an insertion-ordered association list reproduces the
observable behaviour. -/
def dictSet (d : List (PyVec × ℕ)) (k : PyVec) (v : ℕ) : List (PyVec × ℕ) :=
  match d with
  | [] => [(k, v)]
  | (sk, sv) :: rest =>
    if vecEqVec sk k then (sk, v) :: rest else (sk, sv) :: dictSet rest k v

/-- Lookup `d[t]` for a plain tuple key `t`: the earliest-inserted stored
`Point3d` key whose coordinates equal `t` wins; a miss is a `KeyError`
(modelled as `none`). -/
def dictGetTup (d : List (PyVec × ℕ)) (t : ℚ × ℚ × ℚ) : Option ℕ :=
  match d with
  | [] => none
  | (sk, sv) :: rest => if vecEqTup sk t then some sv else dictGetTup rest t

/-- Lookup `d[q]` for a `Vector3d`/`Point3d` key `q`: stored keys match only by
object identity (see `vecEqVec`), so a freshly constructed point with the
same coordinates raises `KeyError`. -/
def dictGetVec (d : List (PyVec × ℕ)) (q : PyVec) : Option ℕ :=
  match d with
  | [] => none
  | (sk, sv) :: rest => if vecEqVec sk q then some sv else dictGetVec rest q

/-- One step of the `points` setter: `val` at position `i` becomes a fresh
`Point3d` instance (modelled with object id `i`, distinct from every id
stored before it), `self.pointDict[point] = i` is executed, and the point
is appended to `self.pointList` unconditionally. -/
def insertPoint (ps : PointSet) (i : ℕ) (val : PtInput) : PointSet :=
  ⟨ps.pointList ++ [⟨i, val.readCoords⟩],
   dictSet ps.pointDict ⟨i, val.readCoords⟩ i⟩

/-- The `points` setter: `for i, val in enumerate(values)` over the whole
input sequence. -/
def setPoints (ps : PointSet) (values : List PtInput) : PointSet :=
  values.enum.foldl (fun s iv => insertPoint s iv.1 iv.2) ps

/-- Construction `PointSet(points)`: start from an empty list and dict, then run the
setter on the seed sequence (an empty seed skips the setter, which yields
the same state). -/
def mkPointSet (points : List PtInput) : PointSet :=
  setPoints ⟨[], []⟩ points

/-- A key passed to `PointSet.__getitem__`, split by runtime type exactly
as the `isinstance` test splits it: a tuple, a `Vector3d`-or-subclass
instance, an integer, or a slice. -/
inductive PSKey where
  | tupKey (t : ℚ × ℚ × ℚ)
  | vecKey (q : PyVec)
  | intKey (i : ℤ)
  | sliceKey (start stop : Option ℤ)

/-- What `PointSet.__getitem__` can return: an index from the dict, or a
point / list of points from the list. -/
inductive PSVal where
  | idx (n : ℕ)
  | pt (p : PyVec)
  | pts (l : List PyVec)
deriving DecidableEq

/-- Source `PointSet.__getitem__`: a tuple or `Vector3d` key goes to `pointDict`,
any other key is treated as an index or slice into `pointList`. -/
def PointSet.getItem (ps : PointSet) : PSKey → Option PSVal
  | .tupKey t => (dictGetTup ps.pointDict t).map .idx
  | .vecKey q => (dictGetVec ps.pointDict q).map .idx
  | .intKey i => (pySeqGet ps.pointList i).map .pt
  | .sliceKey a b => some (.pts (pySlice ps.pointList a b))

/-! ## Helper lemmas -/

theorem roundHalfEven_intCast (n : ℤ) : roundHalfEven (n : ℝ) = n := by
  unfold roundHalfEven
  rw [Int.floor_intCast]
  rw [if_pos]
  norm_num

theorem isRoughlyZero_zero : isRoughlyZero 0 := by
  unfold isRoughlyZero pyRound
  have h0 : ((0 : ℝ) * 10 ^ 7) = ((0 : ℤ) : ℝ) := by norm_num
  rw [h0, roundHalfEven_intCast]
  norm_num

theorem not_isRoughlyZero_intCast (n : ℤ) (hn : n ≠ 0) :
    ¬ isRoughlyZero (n : ℝ) := by
  unfold isRoughlyZero pyRound
  have h1 : ((n : ℝ) * 10 ^ 7) = ((n * 10 ^ 7 : ℤ) : ℝ) := by push_cast; ring
  rw [h1, roundHalfEven_intCast]
  rw [div_eq_zero_iff]
  push_neg
  constructor
  · exact_mod_cast mul_ne_zero hn (by norm_num)
  · norm_num

theorem not_isRoughlyZero_of_eq_intCast {x : ℝ} (n : ℤ) (hn : n ≠ 0)
    (hx : x = (n : ℝ)) : ¬ isRoughlyZero x :=
  hx ▸ not_isRoughlyZero_intCast n hn

theorem sumSquares_nonneg (v : Vector3d) : 0 ≤ sumSquares v := by
  unfold sumSquares
  positivity

theorem sumSquares_ne_zero (v : Vector3d)
    (h : ¬ isRoughlyZero (sumSquares v)) : sumSquares v ≠ 0 := by
  intro h0
  exact h (h0 ▸ isRoughlyZero_zero)

theorem length_pos (v : Vector3d) (h : ¬ isRoughlyZero (sumSquares v)) :
    0 < v.length :=
  Real.sqrt_pos.mpr (lt_of_le_of_ne (sumSquares_nonneg v)
    (Ne.symm (sumSquares_ne_zero v h)))

theorem length_sq (v : Vector3d) : v.length ^ 2 = sumSquares v :=
  Real.sq_sqrt (sumSquares_nonneg v)

theorem mulNum_mulNum (v : Vector3d) (a b : ℝ) :
    (v.mulNum a).mulNum b = v.mulNum (a * b) := by
  ext <;> simp [Vector3d.mulNum] <;> ring

theorem mulNum_one (v : Vector3d) : v.mulNum 1 = v := by
  ext <;> simp [Vector3d.mulNum]

theorem sumSquares_mulNum (v : Vector3d) (c : ℝ) :
    sumSquares (v.mulNum c) = c ^ 2 * sumSquares v := by
  simp [sumSquares, Vector3d.mulNum]
  ring

theorem length_mulNum (v : Vector3d) (c : ℝ) :
    (v.mulNum c).length = |c| * v.length := by
  unfold Vector3d.length
  rw [sumSquares_mulNum, Real.sqrt_mul (sq_nonneg c), Real.sqrt_sq_eq_abs]

theorem normalized_eq_ok (v : Vector3d) (h : ¬ isRoughlyZero (sumSquares v)) :
    v.normalized = .ok (v.mulNum (1 / v.length)) := by
  unfold Vector3d.normalized
  rw [if_neg h]

theorem add_num_eq_ok (v : Vector3d) (n : ℝ)
    (h : ¬ isRoughlyZero (sumSquares v)) :
    v.add (.num n) = .ok (v.mulNum (n / v.length + 1)) := by
  have hL := length_pos v h
  simp only [Vector3d.add, normalized_eq_ok v h]
  congr 1
  ext <;> simp [Vector3d.mulNum, Vector3d.addVec] <;> field_simp <;> ring

/-! ## Claim theorems -/

/-- Claim C2: `normalized` — and `toLength`, scalar `+`, scalar `-`, which
call it — raises `ZeroDivisionError` if and only if the sum of the squares
of the components rounds to zero at 7 decimal digits (`isRoughlyZero`);
whenever that sum rounds to a nonzero value, each of these operations
returns a result and never raises. -/
theorem claim_C2_zero_division_iff (v : Vector3d) (n s : ℝ) :
    (v.normalized = .error .zeroDivisionError ↔ isRoughlyZero (sumSquares v)) ∧
    ((∃ u, v.normalized = .ok u) ↔ ¬ isRoughlyZero (sumSquares v)) ∧
    (v.toLength n = .error .zeroDivisionError ↔ isRoughlyZero (sumSquares v)) ∧
    ((∃ u, v.toLength n = .ok u) ↔ ¬ isRoughlyZero (sumSquares v)) ∧
    (v.add (.num s) = .error .zeroDivisionError ↔ isRoughlyZero (sumSquares v)) ∧
    ((∃ u, v.add (.num s) = .ok u) ↔ ¬ isRoughlyZero (sumSquares v)) ∧
    (v.sub (.num s) = .error .zeroDivisionError ↔ isRoughlyZero (sumSquares v)) ∧
    ((∃ u, v.sub (.num s) = .ok u) ↔ ¬ isRoughlyZero (sumSquares v)) := by
  by_cases h : isRoughlyZero (sumSquares v)
  · have hn : v.normalized = .error .zeroDivisionError := by
      unfold Vector3d.normalized
      rw [if_pos h]
    refine ⟨?_, ?_, ?_, ?_, ?_, ?_, ?_, ?_⟩ <;>
      simp [Vector3d.toLength, Vector3d.add, Vector3d.sub, Operand.mulNegOne,
        hn, h]
  · have hn : v.normalized = .ok (v.mulNum (1 / v.length)) :=
      normalized_eq_ok v h
    refine ⟨?_, ?_, ?_, ?_, ?_, ?_, ?_, ?_⟩ <;>
      simp [Vector3d.toLength, Vector3d.add, Vector3d.sub, Operand.mulNegOne,
        hn, h]

/-- Claim C7, counterexample: the claim says multiplication by an operand
that is neither a number nor a vector "fails naturally via type mismatch";
in fact `__mul__` has no `else` branch, so it silently returns `None` —
an ordinary non-error result — for such an operand. -/
theorem claim_C7_counterexample :
    Vector3d.mul ⟨1, 2, 3⟩ .foreign = .ok .noneV ∧
    ¬ ∃ e, Vector3d.mul ⟨1, 2, 3⟩ .foreign = .error e := by
  constructor
  · rfl
  · simp [Vector3d.mul]

/-- Claim C7, amended: for an operand that is neither a real number nor a
vector/point, `__add__` raises `NotImplementedError` via its explicit
guard, while `__mul__` does not fail at all — it falls through its
`isinstance` dispatch and silently returns Python `None`. -/
theorem claim_C7_amended (v : Vector3d) :
    v.add .foreign = .error .notImplementedError ∧
    v.mul .foreign = .ok .noneV ∧
    ¬ ∃ e, v.mul .foreign = .error e := by
  refine ⟨rfl, rfl, ?_⟩
  simp [Vector3d.mul]

/-- Claim C9: the dot product is commutative, the cross product is
anti-commutative (negation is written `* -1`, the module's own idiom,
since `Vector3d` defines no unary minus), and the cross product of a
vector with itself is the zero vector. -/
theorem claim_C9_dot_cross_algebra (u v : Vector3d) :
    u.dot v = v.dot u ∧
    u.cross v = (v.cross u).mulNum (-1) ∧
    u.cross u = ⟨0, 0, 0⟩ := by
  refine ⟨?_, ?_, ?_⟩
  · unfold Vector3d.dot
    ring
  · ext <;> simp [Vector3d.cross, Vector3d.mulNum] <;> ring
  · ext <;> simp [Vector3d.cross] <;> ring

/-- Claim C3, code-bug evidence: two distinct `Vector3d` instances with
identical coordinates do NOT compare equal under Python `==` — both
`__eq__` calls return `NotImplemented` (the stored tuple is compared with
a non-tuple), so `==` falls back to object identity.  The other two parts
of the claim hold: a vector equals the plain tuple of its coordinates,
and its hash is exactly the hash of that tuple. -/
theorem claim_C3_structural_equality :
    vecEqVec ⟨0, (1, 2, 3)⟩ ⟨1, (1, 2, 3)⟩ = false ∧
    (⟨0, (1, 2, 3)⟩ : PyVec).coords = (⟨1, (1, 2, 3)⟩ : PyVec).coords ∧
    (∀ (a : PyVec) (t : ℚ × ℚ × ℚ), vecEqTup a t = true ↔ a.coords = t) ∧
    (∀ x y z : ℚ, ∀ i : ℕ, pyHashVec ⟨i, (x, y, z)⟩ = pyHashTup (x, y, z)) := by
  refine ⟨by decide, by decide, ?_, ?_⟩
  · intro a t
    simp [vecEqTup]
  · intro x y z i
    rfl

/-- Claim C10: `Vector3d` indexing supports three addressing modes on the
one stored triple — integer index (negative included), slice returning a
sub-tuple, and symbolic axis name — and on `Vector3d(2.0, 1.0, 2.2)` the
key `0` yields `2.0`, `-1` yields `2.2`, the slice `0:2` yields
`(2.0, 1.0)`, and `"y"` yields `1.0`. -/
theorem claim_C10_indexing (v : Vector3d) :
    v.getItem (.idx 0) = some (.scalar v.x) ∧
    v.getItem (.idx 1) = some (.scalar v.y) ∧
    v.getItem (.idx 2) = some (.scalar v.z) ∧
    v.getItem (.idx (-1)) = some (.scalar v.z) ∧
    v.getItem (.idx (-2)) = some (.scalar v.y) ∧
    v.getItem (.idx (-3)) = some (.scalar v.x) ∧
    v.getItem (.slice (some 0) (some 2)) = some (.tup [v.x, v.y]) ∧
    v.getItem (.axisName "x") = some (.scalar v.x) ∧
    v.getItem (.axisName "y") = some (.scalar v.y) ∧
    v.getItem (.axisName "z") = some (.scalar v.z) ∧
    Vector3d.getItem ⟨2, 1, 2.2⟩ (.idx 0) = some (.scalar 2) ∧
    Vector3d.getItem ⟨2, 1, 2.2⟩ (.idx (-1)) = some (.scalar 2.2) ∧
    Vector3d.getItem ⟨2, 1, 2.2⟩ (.slice (some 0) (some 2))
      = some (.tup [2, 1]) ∧
    Vector3d.getItem ⟨2, 1, 2.2⟩ (.axisName "y") = some (.scalar 1) := by
  refine ⟨?_, ?_, ?_, ?_, ?_, ?_, ?_, ?_, ?_, ?_, ?_, ?_, ?_, ?_⟩ <;>
    simp [Vector3d.getItem, pySeqGet, Vector3d.asList, pySlice, pySliceBound,
      Vector3d.asDict] <;>
    norm_num

/-- Claim C8: distance between two points is symmetric, `vectorTo` is
anti-symmetric (negation written `* -1`, as the module itself writes it),
and `p2.vectorTo(p1)` is exactly what the subtraction operator
`p1 - p2` returns. -/
theorem claim_C8_point_relations (p1 p2 : Vector3d) :
    Point3d.distanceTo p1 p2 = Point3d.distanceTo p2 p1 ∧
    Point3d.vectorTo p1 p2 = (Point3d.vectorTo p2 p1).mulNum (-1) ∧
    p1.sub (.vec p2) = .ok (Point3d.vectorTo p2 p1) := by
  refine ⟨?_, ?_, rfl⟩
  · unfold Point3d.distanceTo Vector3d.length
    congr 1
    simp [sumSquares, Vector3d.subVec, Vector3d.addVec, Vector3d.mulNum]
    ring
  · ext <;>
      simp [Point3d.vectorTo, Vector3d.subVec, Vector3d.addVec,
        Vector3d.mulNum] <;>
      ring

/-- Claim C1, code-bug evidence, at the claim's own scenario
`PointSet([(0,0,0), (1,0,0), (0,0,0)])`: the insertion-ordered sequence
does retain all three inputs, but the coordinate mapping ends up with
THREE entries, not one per distinct coordinate value — each insertion
stores a fresh `Point3d` key and distinct instances never compare equal
(see `vecEqVec`), so the intended overwrite never happens — and looking
up the tuple `(0,0,0)` returns `0`, the index of the FIRST insertion,
not `2`. -/
theorem claim_C1_pointset_duplicates :
    (mkPointSet [.tupIn (0, 0, 0), .tupIn (1, 0, 0),
      .tupIn (0, 0, 0)]).pointList.length = 3 ∧
    (mkPointSet [.tupIn (0, 0, 0), .tupIn (1, 0, 0),
      .tupIn (0, 0, 0)]).pointDict.length = 3 ∧
    (mkPointSet [.tupIn (0, 0, 0), .tupIn (1, 0, 0),
      .tupIn (0, 0, 0)]).getItem (.tupKey (0, 0, 0)) = some (.idx 0) := by
  refine ⟨?_, ?_, ?_⟩ <;> decide

/-- Claim C6, code-bug evidence: lookup does dispatch purely on the key's
type (a tuple goes to the mapping, an integer to the sequence), but a
`Point3d`/`Vector3d` key with coordinates equal to a stored point's does
NOT return the stored index — the stored `Point3d` key compares equal to
a vector-like query only by object identity, so a freshly constructed
point (modelled here with object id `5`, distinct from the stored id `0`)
raises `KeyError`, while the equal plain tuple returns `0`. -/
theorem claim_C6_lookup_dispatch :
    (mkPointSet [.tupIn (1, 2, 3)]).getItem (.tupKey (1, 2, 3))
      = some (.idx 0) ∧
    (mkPointSet [.tupIn (1, 2, 3)]).getItem (.vecKey ⟨5, (1, 2, 3)⟩)
      = none ∧
    (mkPointSet [.tupIn (1, 2, 3)]).getItem (.intKey 0)
      = some (.pt ⟨0, (1, 2, 3)⟩) := by
  refine ⟨?_, ?_, ?_⟩ <;> decide

theorem sqrt_five_gt : (2.2360679774 : ℝ) < Real.sqrt 5 :=
  (Real.lt_sqrt (by norm_num)).mpr (by norm_num)

theorem sqrt_five_lt : Real.sqrt 5 < 2.2360679775 :=
  (Real.sqrt_lt' (by norm_num)).mpr (by norm_num)

theorem sqrt_five_pos : 0 < Real.sqrt 5 :=
  lt_trans (by norm_num) sqrt_five_gt

theorem inv_sqrt_five_ge : (0.44721359545 : ℝ) ≤ 1 / Real.sqrt 5 := by
  rw [le_div_iff sqrt_five_pos]
  nlinarith [sqrt_five_lt]

theorem inv_sqrt_five_le : 1 / Real.sqrt 5 ≤ (0.44721359555 : ℝ) := by
  rw [div_le_iff sqrt_five_pos]
  nlinarith [sqrt_five_gt]

theorem length_012 : Vector3d.length ⟨0, 1, 2⟩ = Real.sqrt 5 := by
  unfold Vector3d.length
  congr 1
  unfold sumSquares
  norm_num

/-- Claim C4: the scalar branch of `__add__` extends the vector along its
own direction — `v + s` is `normalized(v) * s + v` whenever `v`
normalizes; and concretely `Vector3d(0,1,2) + 1` is approximately
`(0, 1.4472135955, 2.894427191)` with length exactly one more than the
length of `Vector3d(0,1,2)` (exact in the real-number model, hence within
any float tolerance). -/
theorem claim_C4_scalar_add_extends_length :
    (∀ (v : Vector3d) (s : ℝ), ¬ isRoughlyZero (sumSquares v) →
      ∃ u, v.normalized = .ok u ∧ v.add (.num s) = .ok ((u.mulNum s).addVec v)) ∧
    (∃ w, Vector3d.add ⟨0, 1, 2⟩ (.num 1) = .ok w ∧ w.x = 0 ∧
      |w.y - 1.4472135955| ≤ 1e-9 ∧ |w.z - 2.894427191| ≤ 1e-9 ∧
      w.length = Vector3d.length ⟨0, 1, 2⟩ + 1) := by
  constructor
  · intro v s h
    refine ⟨v.mulNum (1 / v.length), normalized_eq_ok v h, ?_⟩
    simp only [Vector3d.add, normalized_eq_ok v h]
  · have h5 : ¬ isRoughlyZero (sumSquares ⟨0, 1, 2⟩) :=
      not_isRoughlyZero_of_eq_intCast 5 (by norm_num)
        (by unfold sumSquares; push_cast; norm_num)
    have hadd := add_num_eq_ok ⟨0, 1, 2⟩ 1 h5
    rw [length_012] at hadd
    have ht1 := inv_sqrt_five_ge
    have ht2 := inv_sqrt_five_le
    refine ⟨_, hadd, ?_, ?_, ?_, ?_⟩
    · simp [Vector3d.mulNum]
    · rw [show ((⟨0, 1, 2⟩ : Vector3d).mulNum (1 / Real.sqrt 5 + 1)).y
          = 1 * (1 / Real.sqrt 5 + 1) from rfl]
      rw [abs_le]
      constructor <;> nlinarith
    · rw [show ((⟨0, 1, 2⟩ : Vector3d).mulNum (1 / Real.sqrt 5 + 1)).z
          = 2 * (1 / Real.sqrt 5 + 1) from rfl]
      rw [abs_le]
      constructor <;> nlinarith
    · rw [length_mulNum, length_012]
      rw [abs_of_pos (by positivity)]
      have h0 : Real.sqrt 5 ≠ 0 := ne_of_gt sqrt_five_pos
      field_simp
      ring

/-- Claim C5, counterexample: the claimed length law and round-trip fail
for a scalar below the negated length.  For `v = Vector3d(0,1,0)` (length
1) and `s = -2`: `v + s` is `(0,-1,0)` whose length is `1`, not
`v.length + s = -1` (a discrepancy of 2, far beyond float tolerance), and
`v + s - s` is `(0,-3,0)`, not `v` (the y components differ by 4). -/
theorem claim_C5_counterexample :
    Vector3d.add ⟨0, 1, 0⟩ (.num (-2)) = .ok ⟨0, -1, 0⟩ ∧
    Vector3d.length ⟨0, -1, 0⟩ = 1 ∧
    Vector3d.length ⟨0, 1, 0⟩ + (-2) = -1 ∧
    (1 : ℝ) ≠ -1 ∧
    Vector3d.sub ⟨0, -1, 0⟩ (.num (-2)) = .ok ⟨0, -3, 0⟩ ∧
    (⟨0, -3, 0⟩ : Vector3d) ≠ ⟨0, 1, 0⟩ := by
  have hA : ¬ isRoughlyZero (sumSquares ⟨0, 1, 0⟩) :=
    not_isRoughlyZero_of_eq_intCast 1 (by norm_num)
      (by unfold sumSquares; push_cast; norm_num)
  have hB : ¬ isRoughlyZero (sumSquares ⟨0, -1, 0⟩) :=
    not_isRoughlyZero_of_eq_intCast 1 (by norm_num)
      (by unfold sumSquares; push_cast; norm_num)
  have l1 : Vector3d.length ⟨0, 1, 0⟩ = 1 := by
    unfold Vector3d.length
    rw [show sumSquares ⟨0, 1, 0⟩ = 1 by unfold sumSquares; norm_num]
    exact Real.sqrt_one
  have l2 : Vector3d.length ⟨0, -1, 0⟩ = 1 := by
    unfold Vector3d.length
    rw [show sumSquares ⟨0, -1, 0⟩ = 1 by unfold sumSquares; norm_num]
    exact Real.sqrt_one
  refine ⟨?_, l2, ?_, by norm_num, ?_, ?_⟩
  · rw [add_num_eq_ok ⟨0, 1, 0⟩ (-2) hA, l1]
    congr 1
    ext <;> simp [Vector3d.mulNum] <;> norm_num
  · rw [l1]
    norm_num
  · rw [show Vector3d.sub ⟨0, -1, 0⟩ (.num (-2))
        = Vector3d.add ⟨0, -1, 0⟩ (.num ((-2) * -1)) from rfl]
    rw [add_num_eq_ok ⟨0, -1, 0⟩ ((-2) * -1) hB, l2]
    congr 1
    ext <;> simp [Vector3d.mulNum] <;> norm_num
  · intro hcon
    have := congrArg Vector3d.y hcon
    norm_num at this

/-- Claim C5, amended: for a vector `v` that normalizes (squared magnitude
not rounding to zero at 7 decimals) and a scalar `s` such that
`v.length + s` is positive and its square does not round to zero either,
`(v + s).length` equals `v.length + s` and `v + s - s` returns `v` — both
exactly, in the real-number model. -/
theorem claim_C5_amended (v : Vector3d) (s : ℝ)
    (h1 : ¬ isRoughlyZero (sumSquares v))
    (h2 : 0 < v.length + s)
    (h3 : ¬ isRoughlyZero ((v.length + s) ^ 2)) :
    ∃ w, v.add (.num s) = .ok w ∧ w.length = v.length + s ∧
      w.sub (.num s) = .ok v := by
  have hL : 0 < v.length := length_pos v h1
  have hLne : v.length ≠ 0 := ne_of_gt hL
  have hLsne : v.length + s ≠ 0 := ne_of_gt h2
  have hadd := add_num_eq_ok v s h1
  have hcoef : 0 < s / v.length + 1 := by
    have hrw : s / v.length + 1 = (v.length + s) / v.length := by
      field_simp
      ring
    rw [hrw]
    exact div_pos h2 hL
  have hlenw : (v.mulNum (s / v.length + 1)).length = v.length + s := by
    rw [length_mulNum, abs_of_pos hcoef]
    field_simp
    ring
  have hsumw : sumSquares (v.mulNum (s / v.length + 1))
      = (v.length + s) ^ 2 := by
    have h4 : v.length ^ 2 = sumSquares v := length_sq v
    rw [sumSquares_mulNum, ← h4]
    field_simp
    ring
  have h3w : ¬ isRoughlyZero (sumSquares (v.mulNum (s / v.length + 1))) := by
    rw [hsumw]
    exact h3
  refine ⟨v.mulNum (s / v.length + 1), hadd, hlenw, ?_⟩
  rw [show (v.mulNum (s / v.length + 1)).sub (.num s)
      = (v.mulNum (s / v.length + 1)).add (.num (s * -1)) from rfl]
  rw [add_num_eq_ok (v.mulNum (s / v.length + 1)) (s * -1) h3w, hlenw]
  rw [mulNum_mulNum]
  rw [show (s / v.length + 1) * (s * -1 / (v.length + s) + 1) = 1 by
    field_simp
    ring]
  rw [mulNum_one]

/-- Witness for C5 (amended): at `v = Vector3d(0,1,0)`, `s = 1` all three
hypotheses hold concretely, and the amended law follows. -/
theorem claim_C5_amended_witness :
    ∃ w, Vector3d.add ⟨0, 1, 0⟩ (.num 1) = .ok w ∧
      w.length = Vector3d.length ⟨0, 1, 0⟩ + 1 ∧
      w.sub (.num 1) = .ok ⟨0, 1, 0⟩ := by
  have hl : Vector3d.length ⟨0, 1, 0⟩ = 1 := by
    unfold Vector3d.length
    rw [show sumSquares ⟨0, 1, 0⟩ = 1 by unfold sumSquares; norm_num]
    exact Real.sqrt_one
  exact claim_C5_amended ⟨0, 1, 0⟩ 1
    (not_isRoughlyZero_of_eq_intCast 1 (by norm_num)
      (by unfold sumSquares; push_cast; norm_num))
    (by rw [hl]; norm_num)
    (by
      rw [hl]
      exact not_isRoughlyZero_of_eq_intCast 4 (by norm_num)
        (by push_cast; norm_num))

/-- Witness for C4: the universally quantified part of the claim applied
at `v = Vector3d(0,1,2)`, `s = 2`, with the normalizability hypothesis
discharged concretely. -/
theorem claim_C4_witness :
    ∃ u, Vector3d.normalized ⟨0, 1, 2⟩ = .ok u ∧
      Vector3d.add ⟨0, 1, 2⟩ (.num 2) = .ok ((u.mulNum 2).addVec ⟨0, 1, 2⟩) :=
  claim_C4_scalar_add_extends_length.1 ⟨0, 1, 2⟩ 2
    (not_isRoughlyZero_of_eq_intCast 5 (by norm_num)
      (by unfold sumSquares; push_cast; norm_num))

end PyGeom
